import Mathlib

/-
Verification of the MD_AGric data pipeline core (field_data_proccessor.py and
data_ingestion.py) against its specification.  Tables are embedded shallowly:
a DataFrame is a list of column names together with a list of rows, each row a
list of cells; a cell is a rational number, a string, or null (NaN).  External
effects (the SQL query result, the remote CSV parse result) are passed in as
explicit parameters; Python exceptions become an error type threaded through
Except.  Pandas merge suffixing of overlapping non-key column names is not
modelled; theorems touching merged column names only rely on positions or on
columns of the left table, which pandas never renames for a key join.
-/

/-- Errors surfaced by the embedded pipeline, mirroring the Python exceptions
raised by the source: KeyError (missing column label), TypeError (abs on
non-numeric data), ValueError (query_data's empty-result error), pandas
EmptyDataError (read_from_web_CSV on an unparseable resource), and
AttributeError (method call on None). -/
inductive PipeError where
  | keyError
  | typeError
  | valueError
  | emptyDataError
  | attributeError
  deriving DecidableEq

/-- A table cell: a rational-valued number, a string, or null (NaN). -/
inductive Value where
  | num (q : ℚ)
  | str (s : String)
  | null
  deriving DecidableEq

/-- Tests whether a cell holds a string. -/
def Value.isStr : Value → Bool
  | .str _ => true
  | _ => false

/-- Tests whether a cell holds a number. -/
def Value.isNum : Value → Bool
  | .num _ => true
  | _ => false

/-- A pandas DataFrame, embedded as an ordered list of column names and a list
of rows; row i's j-th entry is the cell of row i under the j-th column. -/
@[ext]
structure DataFrame where
  cols : List String
  rows : List (List Value)
  deriving DecidableEq

/-- Cell of a row at a position, null when the position is out of range. -/
def cellAt : List Value → Nat → Value
  | [], _ => .null
  | v :: _, 0 => v
  | _ :: r, n + 1 => cellAt r n

/-- Replace the cell at a position by the image under f; out-of-range
positions leave the row unchanged. -/
def modifyAt (f : Value → Value) : Nat → List Value → List Value
  | _, [] => []
  | 0, v :: r => f v :: r
  | n + 1, v :: r => v :: modifyAt f n r

/-- Position of the first column with the given name (length of the list when
the name is absent), mirroring label lookup on a pandas column index. -/
def colIdx (c : String) : List String → Nat
  | [] => 0
  | x :: l => if x = c then 0 else colIdx c l + 1

/-- Data stored under a column name: the cells of every row at the position
of the first column with that name. -/
def DataFrame.col (df : DataFrame) (c : String) : List Value :=
  df.rows.map (fun r => cellAt r (colIdx c df.cols))

/-- Well-formedness: every row has exactly one cell per column. -/
def DataFrame.WF (df : DataFrame) : Prop :=
  ∀ r ∈ df.rows, r.length = df.cols.length

instance (df : DataFrame) : Decidable df.WF := by
  unfold DataFrame.WF; infer_instance

/- ---------------------------------------------------------------------
Column Reconciler (field_data_proccessor.py, rename_columns, lines 71-95).
--------------------------------------------------------------------- -/

/-- Fuelled loop of rename_columns: while the candidate name is a column,
append an underscore (field_data_proccessor.py lines 86-88). -/
def freshFrom : Nat → String → List String → String
  | 0, t, _ => t
  | n + 1, t, cols => if t ∈ cols then freshFrom n (t ++ "_") cols else t

/-- Temporary column name chosen by rename_columns: the literal base with
underscores appended until it avoids every current column name. -/
def freshTemp (cols : List String) : String :=
  freshFrom (cols.length + 1) "__temp_name_for_swap__" cols

/-- First rename step of rename_columns: the Python dict
rename pairs column1 to temp and column2 to column1; when the two configured
names coincide the dict collapses to the identity binding (the later entry
wins), which this definition reproduces. -/
def swapTemp (c1 c2 t c : String) : String :=
  if c1 = c2 then (if c = c2 then c1 else c)
  else if c = c1 then t else if c = c2 then c1 else c

/-- Embeds FieldDataProcessor.rename_columns: pick a temporary name avoiding
all current columns, rename column1 to it and column2 to column1, then rename
the temporary name to column2.  Pandas rename silently ignores labels that are
not current columns, so the operation is total. -/
def rename_columns (c1 c2 : String) (df : DataFrame) : DataFrame :=
  let t := freshTemp df.cols
  let df1 : DataFrame := { df with cols := df.cols.map (swapTemp c1 c2 t) }
  { df1 with cols := df1.cols.map (fun c => if c = t then c2 else c) }

/-- Transposition of two column names, the intended net effect of the
three-step rename detour. -/
def swapName (c1 c2 c : String) : String :=
  if c = c1 then c2 else if c = c2 then c1 else c

/- Freshness of the temporary name. -/

theorem filter_length_mono {α : Type} (p q : α → Bool)
    (h : ∀ x, p x = true → q x = true) :
    ∀ l : List α, (l.filter p).length ≤ (l.filter q).length := by
  intro l
  induction l with
  | nil => simp
  | cons x xs ih =>
    by_cases hp : p x = true
    · simp [List.filter_cons, hp, h x hp]; omega
    · have hp' : p x = false := by simpa using hp
      by_cases hq : q x = true
      · simp [List.filter_cons, hp', hq]; omega
      · have hq' : q x = false := by simpa using hq
        simpa [List.filter_cons, hp', hq'] using ih

theorem filter_length_strict {α : Type} (p q : α → Bool)
    (h : ∀ x, p x = true → q x = true) (a : α)
    (hqa : q a = true) (hpa : p a = false) :
    ∀ l : List α, a ∈ l → (l.filter p).length < (l.filter q).length := by
  intro l
  induction l with
  | nil => intro h'; cases h'
  | cons x xs ih =>
    intro hmem
    rcases List.mem_cons.mp hmem with rfl | hmem'
    · have := filter_length_mono p q h xs
      simp [List.filter_cons, hpa, hqa]; omega
    · by_cases hp : p x = true
      · have := ih hmem'
        simp [List.filter_cons, hp, h x hp]; omega
      · have hp' : p x = false := by simpa using hp
        have := ih hmem'
        by_cases hq : q x = true
        · simp [List.filter_cons, hp', hq]; omega
        · have hq' : q x = false := by simpa using hq
          simpa [List.filter_cons, hp', hq'] using this

theorem freshFrom_not_mem (cols : List String) :
    ∀ (n : Nat) (t : String),
      (cols.filter (fun c => t.length ≤ c.length)).length < n →
      freshFrom n t cols ∉ cols := by
  intro n
  induction n with
  | zero => intro t h; omega
  | succ n ih =>
    intro t h
    by_cases hm : t ∈ cols
    · have hone : ("_" : String).length = 1 := rfl
      have hlen : (t ++ "_").length = t.length + 1 := by
        simp [String.length_append, hone]
      have hstrict :
          (cols.filter (fun c => (t ++ "_").length ≤ c.length)).length <
            (cols.filter (fun c => t.length ≤ c.length)).length := by
        refine filter_length_strict _ _ ?_ t ?_ ?_ cols hm
        · intro x hx
          simp only [hlen, decide_eq_true_eq] at hx ⊢
          omega
        · simp
        · simp only [hlen, decide_eq_false_iff_not]
          omega
      have : (cols.filter (fun c => (t ++ "_").length ≤ c.length)).length < n := by
        omega
      simpa [freshFrom, hm] using ih (t ++ "_") this
    · simp only [freshFrom, hm, if_neg]
      exact hm

theorem freshTemp_not_mem (cols : List String) : freshTemp cols ∉ cols := by
  refine freshFrom_not_mem cols (cols.length + 1) _ ?_
  have := List.length_filter_le (fun c => ("__temp_name_for_swap__" : String).length ≤ c.length) cols
  omega

/- Position and cell lemmas. -/

theorem colIdx_lt_length (c : String) :
    ∀ l : List String, c ∈ l → colIdx c l < l.length := by
  intro l
  induction l with
  | nil => intro h; cases h
  | cons x xs ih =>
    intro h
    by_cases hx : x = c
    · simp [colIdx, hx]
    · rcases List.mem_cons.mp h with h' | h'
      · exact absurd h'.symm hx
      · have := ih h'
        simp [colIdx, hx]
        omega

theorem getD_colIdx (c : String) :
    ∀ l : List String, c ∈ l → l.getD (colIdx c l) "" = c := by
  intro l
  induction l with
  | nil => intro h; cases h
  | cons x xs ih =>
    intro h
    by_cases hx : x = c
    · simp [colIdx, hx]
    · rcases List.mem_cons.mp h with h' | h'
      · exact absurd h'.symm hx
      · simp only [colIdx, hx, if_neg, List.getD_cons_succ]
        exact ih h'

theorem colIdx_ne_of_ne (c c' : String) (l : List String)
    (hc : c ∈ l) (hc' : c' ∈ l) (hne : c ≠ c') :
    colIdx c l ≠ colIdx c' l := by
  intro h
  apply hne
  have h1 := getD_colIdx c l hc
  have h2 := getD_colIdx c' l hc'
  rw [← h1, ← h2, h]

theorem colIdx_map_invol (f : String → String) (hf : ∀ x, f (f x) = x)
    (c : String) : ∀ l : List String, colIdx c (l.map f) = colIdx (f c) l := by
  intro l
  induction l with
  | nil => rfl
  | cons x xs ih =>
    simp only [List.map_cons, colIdx]
    by_cases h : f x = c
    · have hx : x = f c := by rw [← h, hf]
      simp [h, hx, hf]
    · have hx : x ≠ f c := by
        intro hx
        exact h (by rw [hx, hf])
      simp [h, hx, ih]

theorem cellAt_append_lt (l₂ : List Value) :
    ∀ (l₁ : List Value) (i : Nat), i < l₁.length →
      cellAt (l₁ ++ l₂) i = cellAt l₁ i := by
  intro l₁
  induction l₁ with
  | nil => intro i h; simp at h
  | cons v r ih =>
    intro i h
    cases i with
    | zero => rfl
    | succ n =>
      simp only [List.cons_append, cellAt]
      exact ih n (by simpa using Nat.lt_of_succ_lt_succ h)

theorem colIdx_append_left (c : String) :
    ∀ (l₁ l₂ : List String), c ∈ l₁ → colIdx c (l₁ ++ l₂) = colIdx c l₁ := by
  intro l₁ l₂
  induction l₁ with
  | nil => intro h; cases h
  | cons x xs ih =>
    intro h
    by_cases hx : x = c
    · simp [colIdx, hx]
    · rcases List.mem_cons.mp h with h' | h'
      · exact absurd h'.symm hx
      · simp [colIdx, hx, ih h']

theorem colIdx_append_right (c : String) :
    ∀ (l₁ l₂ : List String), c ∉ l₁ →
      colIdx c (l₁ ++ l₂) = l₁.length + colIdx c l₂ := by
  intro l₁ l₂
  induction l₁ with
  | nil => intro _; simp
  | cons x xs ih =>
    intro h
    have hx : x ≠ c := fun hx => h (hx ▸ List.mem_cons_self x xs)
    have h' : c ∉ xs := fun h' => h (List.mem_cons_of_mem x h')
    simp [colIdx, hx, ih h']
    omega

theorem modifyAt_length (f : Value → Value) :
    ∀ (j : Nat) (r : List Value), (modifyAt f j r).length = r.length := by
  intro j r
  induction r generalizing j with
  | nil => cases j <;> rfl
  | cons v rs ih =>
    cases j with
    | zero => rfl
    | succ n => simp [modifyAt, ih]

theorem cellAt_modifyAt_ne (f : Value → Value) :
    ∀ (i j : Nat) (r : List Value), i ≠ j →
      cellAt (modifyAt f j r) i = cellAt r i := by
  intro i j r
  induction r generalizing i j with
  | nil => intro _; cases j <;> rfl
  | cons v rs ih =>
    intro h
    cases j with
    | zero =>
      cases i with
      | zero => exact absurd rfl h
      | succ n => rfl
    | succ m =>
      cases i with
      | zero => rfl
      | succ n => exact ih n m (fun hh => h (by omega))

theorem cellAt_modifyAt_self (f : Value → Value) (hf : f .null = .null) :
    ∀ (j : Nat) (r : List Value),
      cellAt (modifyAt f j r) j = f (cellAt r j) := by
  intro j r
  induction r generalizing j with
  | nil => simp [modifyAt, cellAt, hf]
  | cons v rs ih =>
    cases j with
    | zero => rfl
    | succ n => exact ih n

theorem modifyAt_modifyAt (f g : Value → Value) :
    ∀ (j : Nat) (r : List Value),
      modifyAt f j (modifyAt g j r) = modifyAt (fun v => f (g v)) j r := by
  intro j r
  induction r generalizing j with
  | nil => cases j <;> rfl
  | cons v rs ih =>
    cases j with
    | zero => rfl
    | succ n => simp [modifyAt, ih]

theorem cellAt_eraseIdx_lt :
    ∀ (r : List Value) (i j : Nat), i < j →
      cellAt (r.eraseIdx j) i = cellAt r i := by
  intro r
  induction r with
  | nil => intro i j _; rfl
  | cons v rs ih =>
    intro i j h
    cases j with
    | zero => omega
    | succ m =>
      cases i with
      | zero => rfl
      | succ n =>
        simp only [List.eraseIdx, cellAt]
        exact ih n m (by omega)

theorem colIdx_eraseIdx_lt (c : String) :
    ∀ (l : List String) (j : Nat), colIdx c l < j →
      colIdx c (l.eraseIdx j) = colIdx c l := by
  intro l
  induction l with
  | nil => intro j _; rfl
  | cons x xs ih =>
    intro j h
    cases j with
    | zero => omega
    | succ m =>
      by_cases hx : x = c
      · simp [List.eraseIdx, colIdx, hx]
      · simp only [colIdx] at h
        rw [if_neg hx] at h
        simp [List.eraseIdx, colIdx, hx, ih m (by omega)]

/- Characterization of the Column Reconciler. -/

theorem swapName_invol (c1 c2 c : String) :
    swapName c1 c2 (swapName c1 c2 c) = c := by
  unfold swapName
  by_cases h1 : c = c1
  · by_cases h12 : c2 = c1
    · simp [h1, h12]
    · simp [h1, h12]
  · by_cases h2 : c = c2
    · simp [h1, h2]
    · simp [h1, h2]

theorem rename_columns_rows (c1 c2 : String) (df : DataFrame) :
    (rename_columns c1 c2 df).rows = df.rows := rfl

theorem rename_columns_cols (c1 c2 : String) (df : DataFrame) (hne : c1 ≠ c2)
    (h1 : c1 ∈ df.cols) :
    (rename_columns c1 c2 df).cols = df.cols.map (swapName c1 c2) := by
  have ht := freshTemp_not_mem df.cols
  show (df.cols.map (swapTemp c1 c2 (freshTemp df.cols))).map
      (fun c => if c = freshTemp df.cols then c2 else c) =
    df.cols.map (swapName c1 c2)
  rw [List.map_map, List.map_eq_map_iff]
  intro c hc
  have hc1t : c1 ≠ freshTemp df.cols := fun h => ht (h ▸ h1)
  have hct : c ≠ freshTemp df.cols := fun h => ht (h ▸ hc)
  have hne' : c2 ≠ c1 := Ne.symm hne
  simp only [Function.comp_apply, swapTemp, swapName, hne, if_neg]
  by_cases e1 : c = c1
  · simp [e1]
  · by_cases e2 : c = c2
    · simp [e1, e2, hc1t, hne']
    · simp [e1, e2, hct]

theorem rename_columns_col (c1 c2 : String) (df : DataFrame) (hne : c1 ≠ c2)
    (h1 : c1 ∈ df.cols) (c : String) :
    (rename_columns c1 c2 df).col c = df.col (swapName c1 c2 c) := by
  unfold DataFrame.col
  rw [rename_columns_rows, rename_columns_cols c1 c2 df hne h1,
    colIdx_map_invol (swapName c1 c2) (swapName_invol c1 c2) c]

deriving instance DecidableEq for Except

/- ---------------------------------------------------------------------
Value Corrector (field_data_proccessor.py, apply_corrections, lines 98-114).
--------------------------------------------------------------------- -/

/-- Absolute value of one cell, as pandas Series.abs computes it elementwise:
numbers are replaced by their magnitude, NaN propagates, and string data
raises TypeError. -/
def absCell : Value → Except PipeError Value
  | .num q => .ok (.num |q|)
  | .null => .ok .null
  | .str _ => .error .typeError

/-- Total counterpart of absCell on non-string cells. -/
def absV : Value → Value
  | .num q => .num |q|
  | v => v

/-- Fallible cell update at a position, short-circuiting on error. -/
def modifyAtM (f : Value → Except PipeError Value) :
    Nat → List Value → Except PipeError (List Value)
  | _, [] => .ok []
  | 0, v :: r =>
    match f v with
    | .error e => .error e
    | .ok v' => .ok (v' :: r)
  | n + 1, v :: r =>
    match modifyAtM f n r with
    | .error e => .error e
    | .ok r' => .ok (v :: r')

/-- Apply absCell at the designated column position of every row. -/
def absRows (j : Nat) : List (List Value) → Except PipeError (List (List Value))
  | [] => .ok []
  | r :: rs =>
    match modifyAtM absCell j r with
    | .error e => .error e
    | .ok r' =>
      match absRows j rs with
      | .error e => .error e
      | .ok rs' => .ok (r' :: rs')

/-- First correction of apply_corrections (line 113):
df[abs_column] = df[abs_column].abs().  Reading a missing column label raises
KeyError; abs over string data raises TypeError. -/
def absColumn (abs_column : String) (df : DataFrame) :
    Except PipeError DataFrame :=
  if abs_column ∈ df.cols then
    match absRows (colIdx abs_column df.cols) df.rows with
    | .error e => .error e
    | .ok rs => .ok { df with rows := rs }
  else .error .keyError

/-- Python dict lookup underlying values_to_rename.get(crop, crop): first
binding of the key, if any. -/
def lookupStr (s : String) : List (String × String) → Option String
  | [] => none
  | (k, v) :: m => if k = s then some v else lookupStr s m

/-- Second correction of apply_corrections (line 114): replace a string cell
by its image under values_to_rename when the exact string is a key, otherwise
leave the cell unchanged; non-string cells miss the dict and pass through. -/
def canonicalizeCell (m : List (String × String)) : Value → Value
  | .str s =>
    match lookupStr s m with
    | some t => .str t
    | none => .str s
  | v => v

/-- Column-level categorical canonicalization:
df[column_name] = df[column_name].apply(lambda crop: values_to_rename.get(crop, crop)). -/
def canonicalizeColumn (m : List (String × String)) (column_name : String)
    (df : DataFrame) : DataFrame :=
  { df with
    rows := df.rows.map (modifyAt (canonicalizeCell m) (colIdx column_name df.cols)) }

/-- Embeds FieldDataProcessor.apply_corrections (lines 98-114): magnitude
normalization of abs_column followed by categorical canonicalization of
column_name; reading a missing column label raises KeyError. -/
def apply_corrections (m : List (String × String))
    (column_name abs_column : String) (df : DataFrame) :
    Except PipeError DataFrame :=
  match absColumn abs_column df with
  | .error e => .error e
  | .ok df1 =>
    if column_name ∈ df1.cols then .ok (canonicalizeColumn m column_name df1)
    else .error .keyError

/- ---------------------------------------------------------------------
Ingestion Gateway (data_ingestion.py) and Station Joiner.
--------------------------------------------------------------------- -/

/-- Embeds query_data (data_ingestion.py lines 63-98): the executed query's
result is the parameter; an empty DataFrame raises ValueError, the spec's
EmptyResultError. -/
def query_data (df : DataFrame) : Except PipeError DataFrame :=
  if df.rows.isEmpty || df.cols.isEmpty then .error .valueError else .ok df

/-- Embeds FieldDataProcessor.ingest_sql_data (lines 54-68): engine creation
and the SQL read are external; their outcome is the parameter, and
query_data's empty check runs on a successful read. -/
def ingest_sql_data (sqlRaw : Except PipeError DataFrame) :
    Except PipeError DataFrame :=
  match sqlRaw with
  | .error e => .error e
  | .ok df => query_data df

/-- Embeds read_from_web_CSV (data_ingestion.py lines 101-130): the remote
parse outcome is the parameter; an unparseable resource raises
EmptyDataError, and a successfully parsed table is returned as is, with no
row-count check. -/
def read_from_web_CSV (parsed : Option DataFrame) : Except PipeError DataFrame :=
  match parsed with
  | none => .error .emptyDataError
  | some df => .ok df

/-- Rows of the right table whose key cell equals the given value, in order. -/
def matchesOf (right : DataFrame) (key : String) (v : Value) :
    List (List Value) :=
  right.rows.filter (fun rr => decide (cellAt rr (colIdx key right.cols) = v))

/-- Output rows contributed by one left row under a left outer join: one row
per matching right row (right cells minus the key cell appended), or the left
row padded with nulls when there is no match.  jl is the key position in the
left table. -/
def mergeRow (right : DataFrame) (key : String) (jl : Nat) (lr : List Value) :
    List (List Value) :=
  let ms := matchesOf right key (cellAt lr jl)
  if ms.isEmpty then
    [lr ++ List.replicate ((right.cols.eraseIdx (colIdx key right.cols)).length)
      Value.null]
  else
    ms.map (fun rr => lr ++ rr.eraseIdx (colIdx key right.cols))

/-- Embeds pd.merge(left, right, on='Field_ID', how='left') as called at
field_data_proccessor.py line 125: every left row is kept in order, one
output row per matching right row (in right order), null right-hand cells for
unmatched left rows; missing key in either table raises KeyError.  Pandas
suffixing of overlapping non-key column names is not modelled (see header
note). -/
def pdMergeLeft (key : String) (left right : DataFrame) :
    Except PipeError DataFrame :=
  if key ∈ left.cols ∧ key ∈ right.cols then
    .ok { cols := left.cols ++ right.cols.eraseIdx (colIdx key right.cols),
          rows := left.rows.flatMap (mergeRow right key (colIdx key left.cols)) }
  else .error .keyError

/-- Embeds FieldDataProcessor.weather_station_mapping (lines 116-128), acting
on the working table (self.df, which is None before ingestion).  With a table
present it fetches the mapping CSV (the fetch outcome is the parameter),
left-merges it into the working table on Field_ID, and returns the new
working table together with the fetched mapping table; with None, the body is
skipped entirely - no fetch, no merge - and None is returned. -/
def weather_station_mapping (fetch : Except PipeError DataFrame) :
    Option DataFrame → Except PipeError (Option DataFrame × Option DataFrame)
  | none => .ok (none, none)
  | some df =>
    match fetch with
    | .error e => .error e
    | .ok wdf =>
      match pdMergeLeft "Field_ID" df wdf with
      | .error e => .error e
      | .ok merged => .ok (some merged, some wdf)

/-- Removes the first column with the given label together with the
corresponding cell of every row. -/
def dropColumn (c : String) (df : DataFrame) : DataFrame :=
  { cols := df.cols.eraseIdx (colIdx c df.cols),
    rows := df.rows.map (fun r => r.eraseIdx (colIdx c df.cols)) }

/-- Embeds the final statement of process (line 139):
self.df.drop(columns="Unnamed: 0"), which raises KeyError when the label is
not a current column (pandas drop raises on missing labels by default). -/
def dropUnnamed (df : DataFrame) : Except PipeError DataFrame :=
  if "Unnamed: 0" ∈ df.cols then .ok (dropColumn "Unnamed: 0" df)
  else .error .keyError

/-- Embeds FieldDataProcessor.process (lines 131-139): ingest, rename
columns, apply corrections (with the default arguments Crop_type and
Elevation), merge the weather-station mapping, then drop "Unnamed: 0".
c1 and c2 are the configured columns_to_rename pair, m the configured
values_to_rename; sqlRaw and csvParsed stand for the external SQL read and
the remote CSV parse.  A None working table at the final drop would raise
AttributeError. -/
def process (c1 c2 : String) (m : List (String × String))
    (sqlRaw : Except PipeError DataFrame) (csvParsed : Option DataFrame) :
    Except PipeError DataFrame :=
  match ingest_sql_data sqlRaw with
  | .error e => .error e
  | .ok df0 =>
    match apply_corrections m "Crop_type" "Elevation" (rename_columns c1 c2 df0) with
    | .error e => .error e
    | .ok df2 =>
      match weather_station_mapping (read_from_web_CSV csvParsed) (some df2) with
      | .error e => .error e
      | .ok (some df3, _) => dropUnnamed df3
      | .ok (none, _) => .error .attributeError

/- ---------------------------------------------------------------------
Claim C2 / C8 / C7: the Column Reconciler.
--------------------------------------------------------------------- -/

/-- Full behaviour of one column swap: row data untouched, the two configured
names exchanged in place with all other names fixed, the column count
preserved, the data readable under each swapped name exchanged, other
columns' data unchanged, and the generated placeholder absent from the
output. -/
def colSwapOK (c1 c2 : String) (df : DataFrame) : Prop :=
  (rename_columns c1 c2 df).rows = df.rows ∧
  (rename_columns c1 c2 df).cols = df.cols.map (swapName c1 c2) ∧
  (rename_columns c1 c2 df).cols.length = df.cols.length ∧
  (rename_columns c1 c2 df).col c1 = df.col c2 ∧
  (rename_columns c1 c2 df).col c2 = df.col c1 ∧
  (∀ c, c ≠ c1 → c ≠ c2 → (rename_columns c1 c2 df).col c = df.col c) ∧
  freshTemp df.cols ∉ (rename_columns c1 c2 df).cols

/-- C2: for every table whose columns include both configured names, the
Column Reconciler swaps the data under the two names, leaves every other
column's name and data unchanged, preserves the column count, and leaves no
column named with the internal placeholder. -/
theorem rename_columns_swaps (c1 c2 : String) (df : DataFrame)
    (hne : c1 ≠ c2) (h1 : c1 ∈ df.cols) (h2 : c2 ∈ df.cols) :
    colSwapOK c1 c2 df := by
  have ht := freshTemp_not_mem df.cols
  have hcols := rename_columns_cols c1 c2 df hne h1
  have hne' : c2 ≠ c1 := Ne.symm hne
  refine ⟨rfl, hcols, ?_, ?_, ?_, ?_, ?_⟩
  · rw [hcols]; simp
  · rw [rename_columns_col c1 c2 df hne h1 c1]
    have : swapName c1 c2 c1 = c2 := by simp [swapName]
    rw [this]
  · rw [rename_columns_col c1 c2 df hne h1 c2]
    have : swapName c1 c2 c2 = c1 := by simp [swapName, hne']
    rw [this]
  · intro c hc1 hc2
    rw [rename_columns_col c1 c2 df hne h1 c]
    have : swapName c1 c2 c = c := by simp [swapName, hc1, hc2]
    rw [this]
  · intro hmem
    rw [hcols] at hmem
    rcases List.mem_map.mp hmem with ⟨c, hc, hswap⟩
    unfold swapName at hswap
    by_cases e1 : c = c1
    · rw [if_pos e1] at hswap
      exact ht (hswap ▸ h2)
    · by_cases e2 : c = c2
      · rw [if_neg e1, if_pos e2] at hswap
        exact ht (hswap ▸ h1)
      · rw [if_neg e1, if_neg e2] at hswap
        exact ht (hswap ▸ hc)

/-- Witness for C2 on a concrete three-column table. -/
theorem rename_columns_swaps_witness :
    (("A" : String) ≠ "B" ∧ "A" ∈ (["A", "B", "C"] : List String) ∧
      "B" ∈ (["A", "B", "C"] : List String)) ∧
    colSwapOK "A" "B"
      ⟨["A", "B", "C"], [[.num 1, .num 2, .num 3], [.num 4, .num 5, .num 6]]⟩ :=
  ⟨by decide,
    rename_columns_swaps "A" "B"
      ⟨["A", "B", "C"], [[.num 1, .num 2, .num 3], [.num 4, .num 5, .num 6]]⟩
      (by decide) (by decide) (by decide)⟩

/-- C8: swapping the same column pair twice restores the original table -
column names, order and data. -/
theorem rename_columns_involutive (c1 c2 : String) (df : DataFrame)
    (hne : c1 ≠ c2) (h1 : c1 ∈ df.cols) (h2 : c2 ∈ df.cols) :
    rename_columns c1 c2 (rename_columns c1 c2 df) = df := by
  have hcols := rename_columns_cols c1 c2 df hne h1
  have h1' : c1 ∈ (rename_columns c1 c2 df).cols := by
    rw [hcols]
    have hm := List.mem_map_of_mem (swapName c1 c2) h2
    have hs : swapName c1 c2 c2 = c1 := by simp [swapName, Ne.symm hne]
    rwa [hs] at hm
  have hcols2 := rename_columns_cols c1 c2 (rename_columns c1 c2 df) hne h1'
  apply DataFrame.ext
  · rw [hcols2, hcols, List.map_map]
    simp [Function.comp_def, swapName_invol]
  · rw [rename_columns_rows, rename_columns_rows]

/-- Witness for C8 on a concrete three-column table. -/
theorem rename_columns_involutive_witness :
    (("A" : String) ≠ "B" ∧ "A" ∈ (["A", "B", "C"] : List String) ∧
      "B" ∈ (["A", "B", "C"] : List String)) ∧
    rename_columns "A" "B"
        (rename_columns "A" "B"
          ⟨["A", "B", "C"], [[.num 1, .num 2, .num 3]]⟩) =
      ⟨["A", "B", "C"], [[.num 1, .num 2, .num 3]]⟩ :=
  ⟨by decide,
    rename_columns_involutive "A" "B"
      ⟨["A", "B", "C"], [[.num 1, .num 2, .num 3]]⟩
      (by decide) (by decide) (by decide)⟩

/-- C7: contrary to the claim (and to the method's own docstring), the
Column Reconciler does not fail when one configured column is absent: pandas
rename ignores missing labels, so on a table with columns A and C and the
configured pair (A, B) the operation silently renames A to B and raises
nothing. -/
theorem rename_columns_silent_on_missing :
    rename_columns "A" "B" ⟨["A", "C"], [[.num 1, .num 2]]⟩ =
      ⟨["B", "C"], [[.num 1, .num 2]]⟩ := by decide

/- ---------------------------------------------------------------------
Claim C3 / C9: the categorical canonicalization step.
--------------------------------------------------------------------- -/

theorem canonicalizeCell_null (m : List (String × String)) :
    canonicalizeCell m .null = .null := rfl

theorem canonicalizeColumn_cols (m : List (String × String)) (c : String)
    (df : DataFrame) : (canonicalizeColumn m c df).cols = df.cols := rfl

theorem canonicalizeColumn_col_self (m : List (String × String)) (c : String)
    (df : DataFrame) :
    (canonicalizeColumn m c df).col c = (df.col c).map (canonicalizeCell m) := by
  unfold DataFrame.col canonicalizeColumn
  simp only [List.map_map]
  rw [List.map_eq_map_iff]
  intro r _
  exact cellAt_modifyAt_self (canonicalizeCell m) (canonicalizeCell_null m)
    (colIdx c df.cols) r

theorem canonicalizeColumn_col_other (m : List (String × String)) (c : String)
    (df : DataFrame) (hc : c ∈ df.cols) (c' : String) (hc' : c' ∈ df.cols)
    (hne : c' ≠ c) :
    (canonicalizeColumn m c df).col c' = df.col c' := by
  unfold DataFrame.col canonicalizeColumn
  simp only [List.map_map]
  rw [List.map_eq_map_iff]
  intro r _
  exact cellAt_modifyAt_ne (canonicalizeCell m) (colIdx c' df.cols)
    (colIdx c df.cols) r (colIdx_ne_of_ne c' c df.cols hc' hc hne)

/-- Behaviour of one canonicalization pass on a designated column: column
names unchanged, the designated column mapped cell-wise through the exact
dict lookup, and every other column's data unchanged. -/
def canonOK (m : List (String × String)) (c : String) (df : DataFrame) : Prop :=
  (canonicalizeColumn m c df).cols = df.cols ∧
  (canonicalizeColumn m c df).col c = (df.col c).map (canonicalizeCell m) ∧
  (∀ c' ∈ df.cols, c' ≠ c → (canonicalizeColumn m c df).col c' = df.col c')

/-- C3: the categorical step replaces each value of the designated column by
its image under the mapping exactly when the untrimmed value is a key and
leaves it unchanged otherwise; the lookup is exact, so under the mapping
wheat to Wheat the value "wheat " with a trailing space stays unchanged. -/
theorem canonicalization_exact (m : List (String × String)) (c : String)
    (df : DataFrame) (hc : c ∈ df.cols) :
    canonOK m c df ∧
    (∀ s t, lookupStr s m = some t → canonicalizeCell m (.str s) = .str t) ∧
    (∀ s, lookupStr s m = none → canonicalizeCell m (.str s) = .str s) ∧
    canonicalizeColumn [("wheat", "Wheat")] "Crop_type"
        ⟨["Crop_type"], [[.str "wheat "]]⟩ =
      ⟨["Crop_type"], [[.str "wheat "]]⟩ := by
  refine ⟨⟨rfl, canonicalizeColumn_col_self m c df, ?_⟩, ?_, ?_, by decide⟩
  · intro c' hc' hne
    exact canonicalizeColumn_col_other m c df hc c' hc' hne
  · intro s t h
    simp [canonicalizeCell, h]
  · intro s h
    simp [canonicalizeCell, h]

/-- Witness for C3 on a concrete two-column table holding the trailing-space
value. -/
theorem canonicalization_exact_witness :
    ("Crop_type" ∈ (["Crop_type", "Other"] : List String)) ∧
    (canonOK [("wheat", "Wheat")] "Crop_type"
        ⟨["Crop_type", "Other"],
          [[.str "wheat ", .num 1], [.str "wheat", .num 2]]⟩ ∧
      (∀ s t, lookupStr s [("wheat", "Wheat")] = some t →
        canonicalizeCell [("wheat", "Wheat")] (.str s) = .str t) ∧
      (∀ s, lookupStr s [("wheat", "Wheat")] = none →
        canonicalizeCell [("wheat", "Wheat")] (.str s) = .str s) ∧
      canonicalizeColumn [("wheat", "Wheat")] "Crop_type"
          ⟨["Crop_type"], [[.str "wheat "]]⟩ =
        ⟨["Crop_type"], [[.str "wheat "]]⟩) :=
  ⟨by decide,
    canonicalization_exact [("wheat", "Wheat")] "Crop_type"
      ⟨["Crop_type", "Other"], [[.str "wheat ", .num 1], [.str "wheat", .num 2]]⟩
      (by decide)⟩

/-- C9 counterexample: with the chained mapping a to b, b to c, applying the
categorical step twice to a table holding "a" yields "c" while applying it
once yields "b" - the step is not idempotent for every mapping. -/
theorem canonicalize_not_idempotent :
    canonicalizeColumn [("a", "b"), ("b", "c")] "v"
        (canonicalizeColumn [("a", "b"), ("b", "c")] "v" ⟨["v"], [[.str "a"]]⟩) ≠
      canonicalizeColumn [("a", "b"), ("b", "c")] "v" ⟨["v"], [[.str "a"]]⟩ := by
  decide

theorem lookupStr_mem (s t : String) :
    ∀ m : List (String × String), lookupStr s m = some t → (s, t) ∈ m := by
  intro m
  induction m with
  | nil => intro h; cases h
  | cons p m' ih =>
    intro h
    obtain ⟨k, v⟩ := p
    by_cases hk : k = s
    · simp only [lookupStr, hk, if_pos] at h
      simp only [Option.some.injEq] at h
      subst hk
      subst h
      exact List.mem_cons_self _ _
    · simp only [lookupStr, hk, if_neg, if_false] at h
      exact List.mem_cons_of_mem _ (ih h)

theorem canonicalizeCell_idem (m : List (String × String))
    (hm : ∀ p ∈ m, (lookupStr p.2 m).getD p.2 = p.2) (v : Value) :
    canonicalizeCell m (canonicalizeCell m v) = canonicalizeCell m v := by
  cases v with
  | num q => rfl
  | null => rfl
  | str s =>
    cases h : lookupStr s m with
    | none => simp [canonicalizeCell, h]
    | some t =>
      have hmem := lookupStr_mem s t m h
      have := hm (s, t) hmem
      simp only [canonicalizeCell, h]
      cases h2 : lookupStr t m with
      | none => simp [canonicalizeCell, h2]
      | some u =>
        rw [h2] at this
        simp only [Option.getD_some] at this
        simp [canonicalizeCell, h2, this]

/-- C9 amended: applying the categorical step twice with the same mapping
equals applying it once, provided every canonical value of the mapping is a
fixed point (it is either not a key, or maps to itself); the scenario mapping
wheat to Wheat satisfies this, but chained mappings do not. -/
theorem canonicalize_idempotent_of_fixed (m : List (String × String))
    (hm : ∀ p ∈ m, (lookupStr p.2 m).getD p.2 = p.2) (c : String)
    (df : DataFrame) :
    canonicalizeColumn m c (canonicalizeColumn m c df) =
      canonicalizeColumn m c df := by
  have hfun : (fun v => canonicalizeCell m (canonicalizeCell m v)) =
      canonicalizeCell m := funext (canonicalizeCell_idem m hm)
  apply DataFrame.ext
  · rfl
  · show (df.rows.map (modifyAt (canonicalizeCell m) (colIdx c df.cols))).map
        (modifyAt (canonicalizeCell m) (colIdx c df.cols)) =
      df.rows.map (modifyAt (canonicalizeCell m) (colIdx c df.cols))
    rw [List.map_map]
    rw [List.map_eq_map_iff]
    intro r _
    show modifyAt (canonicalizeCell m) (colIdx c df.cols)
        (modifyAt (canonicalizeCell m) (colIdx c df.cols) r) = _
    rw [modifyAt_modifyAt, hfun]

/-- Witness for the amended C9 with the scenario mapping. -/
theorem canonicalize_idempotent_of_fixed_witness :
    (∀ p ∈ [("wheat", "Wheat")],
      (lookupStr p.2 [("wheat", "Wheat")]).getD p.2 = p.2) ∧
    canonicalizeColumn [("wheat", "Wheat")] "Crop_type"
        (canonicalizeColumn [("wheat", "Wheat")] "Crop_type"
          ⟨["Crop_type"], [[.str "wheat"], [.str "Wheat"], [.str "wheat "]]⟩) =
      canonicalizeColumn [("wheat", "Wheat")] "Crop_type"
        ⟨["Crop_type"], [[.str "wheat"], [.str "Wheat"], [.str "wheat "]]⟩ :=
  ⟨by decide,
    canonicalize_idempotent_of_fixed [("wheat", "Wheat")] (by decide) "Crop_type"
      ⟨["Crop_type"], [[.str "wheat"], [.str "Wheat"], [.str "wheat "]]⟩⟩

/- ---------------------------------------------------------------------
Claim C1: magnitude normalization of the Elevation column.
--------------------------------------------------------------------- -/

theorem absV_null : absV .null = .null := rfl

theorem modifyAtM_absCell_ok :
    ∀ (j : Nat) (r : List Value), (cellAt r j).isStr = false →
      modifyAtM absCell j r = .ok (modifyAt absV j r) := by
  intro j r
  induction r generalizing j with
  | nil => intro _; cases j <;> rfl
  | cons v rs ih =>
    intro h
    cases j with
    | zero =>
      cases v with
      | num q => rfl
      | null => rfl
      | str s => simp [cellAt, Value.isStr] at h
    | succ n =>
      have h' : (cellAt rs n).isStr = false := h
      simp [modifyAtM, modifyAt, ih n h']

theorem absRows_ok (j : Nat) :
    ∀ rows : List (List Value), (∀ r ∈ rows, (cellAt r j).isStr = false) →
      absRows j rows = .ok (rows.map (modifyAt absV j)) := by
  intro rows
  induction rows with
  | nil => intro _; rfl
  | cons r rs ih =>
    intro h
    have h1 := h r (List.mem_cons_self r rs)
    have h2 : ∀ r' ∈ rs, (cellAt r' j).isStr = false :=
      fun r' hr' => h r' (List.mem_cons_of_mem r hr')
    simp [absRows, modifyAtM_absCell_ok j r h1, ih h2]

theorem absColumn_ok (ac : String) (df : DataFrame) (hac : ac ∈ df.cols)
    (h : ∀ v ∈ df.col ac, v.isStr = false) :
    absColumn ac df =
      .ok ⟨df.cols, df.rows.map (modifyAt absV (colIdx ac df.cols))⟩ := by
  have h' : ∀ r ∈ df.rows, (cellAt r (colIdx ac df.cols)).isStr = false := by
    intro r hr
    exact h _ (List.mem_map_of_mem _ hr)
  unfold absColumn
  rw [if_pos hac, absRows_ok (colIdx ac df.cols) df.rows h']

theorem col_mk_modifyAt_self (f : Value → Value) (hf : f .null = .null)
    (df : DataFrame) (c : String) :
    (DataFrame.mk df.cols (df.rows.map (modifyAt f (colIdx c df.cols)))).col c =
      (df.col c).map f := by
  unfold DataFrame.col
  simp only [List.map_map]
  rw [List.map_eq_map_iff]
  intro r _
  exact cellAt_modifyAt_self f hf (colIdx c df.cols) r

theorem col_mk_modifyAt_other (f : Value → Value) (df : DataFrame)
    (c : String) (hc : c ∈ df.cols) (c' : String) (hc' : c' ∈ df.cols)
    (hne : c' ≠ c) :
    (DataFrame.mk df.cols (df.rows.map (modifyAt f (colIdx c df.cols)))).col c' =
      df.col c' := by
  unfold DataFrame.col
  simp only [List.map_map]
  rw [List.map_eq_map_iff]
  intro r _
  exact cellAt_modifyAt_ne f (colIdx c' df.cols) (colIdx c df.cols) r
    (colIdx_ne_of_ne c' c df.cols hc' hc hne)

theorem apply_corrections_ok (m : List (String × String))
    (cn ac : String) (df : DataFrame) (hac : ac ∈ df.cols) (hcn : cn ∈ df.cols)
    (h : ∀ v ∈ df.col ac, v.isStr = false) :
    apply_corrections m cn ac df =
      .ok (canonicalizeColumn m cn
        ⟨df.cols, df.rows.map (modifyAt absV (colIdx ac df.cols))⟩) := by
  unfold apply_corrections
  rw [absColumn_ok ac df hac h]
  exact if_pos hcn

theorem WF_mk_modifyAt (f : Value → Value) (j : Nat) (df : DataFrame)
    (h : df.WF) :
    (DataFrame.mk df.cols (df.rows.map (modifyAt f j))).WF := by
  intro r hr
  rcases List.mem_map.mp hr with ⟨r0, hr0, rfl⟩
  rw [modifyAt_length]
  exact h r0 hr0

theorem WF_canonicalizeColumn (m : List (String × String)) (cn : String)
    (df : DataFrame) (h : df.WF) : (canonicalizeColumn m cn df).WF :=
  WF_mk_modifyAt (canonicalizeCell m) (colIdx cn df.cols) df h

/- Inversion of the join and of the final drop. -/

theorem mergeRow_shape (right : DataFrame) (key : String) (jl : Nat)
    (lr : List Value) :
    ∀ row ∈ mergeRow right key jl lr, ∃ ext, row = lr ++ ext := by
  intro row hrow
  unfold mergeRow at hrow
  by_cases he : (matchesOf right key (cellAt lr jl)).isEmpty
  · rw [if_pos he] at hrow
    rcases List.mem_singleton.mp hrow with rfl
    exact ⟨_, rfl⟩
  · rw [if_neg he] at hrow
    rcases List.mem_map.mp hrow with ⟨rr, _, rfl⟩
    exact ⟨_, rfl⟩

theorem pdMergeLeft_ok_inv (key : String) (left right merged : DataFrame)
    (h : pdMergeLeft key left right = .ok merged) :
    key ∈ left.cols ∧ key ∈ right.cols ∧
      merged = ⟨left.cols ++ right.cols.eraseIdx (colIdx key right.cols),
        left.rows.flatMap (mergeRow right key (colIdx key left.cols))⟩ := by
  unfold pdMergeLeft at h
  by_cases hk : key ∈ left.cols ∧ key ∈ right.cols
  · rw [if_pos hk] at h
    exact ⟨hk.1, hk.2, (Except.ok.injEq _ _).mp h |>.symm⟩
  · rw [if_neg hk] at h
    cases h

theorem mem_col_pdMergeLeft (key c : String) (left right merged : DataFrame)
    (h : pdMergeLeft key left right = .ok merged)
    (hwf : left.WF) (hc : c ∈ left.cols) :
    ∀ v ∈ merged.col c, v ∈ left.col c := by
  obtain ⟨hkl, hkr, rfl⟩ := pdMergeLeft_ok_inv key left right merged h
  intro v hv
  unfold DataFrame.col at hv ⊢
  simp only at hv
  rcases List.mem_map.mp hv with ⟨row, hrow, rfl⟩
  rcases List.mem_flatMap.mp hrow with ⟨lr, hlr, hrowm⟩
  rcases mergeRow_shape right key (colIdx key left.cols) lr row hrowm with ⟨ext, rfl⟩
  rw [colIdx_append_left c left.cols _ hc]
  have hjlt : colIdx c left.cols < lr.length := by
    rw [hwf lr hlr]
    exact colIdx_lt_length c left.cols hc
  rw [cellAt_append_lt ext lr _ hjlt]
  exact List.mem_map_of_mem _ hlr

theorem dropColumn_col_of_lt (cDrop c : String) (df : DataFrame)
    (hlt : colIdx c df.cols < colIdx cDrop df.cols) :
    (dropColumn cDrop df).col c = df.col c := by
  unfold dropColumn DataFrame.col
  simp only
  rw [colIdx_eraseIdx_lt c df.cols _ hlt, List.map_map, List.map_eq_map_iff]
  intro r _
  exact cellAt_eraseIdx_lt r _ _ hlt

theorem dropUnnamed_ok_inv (dfm out : DataFrame)
    (h : dropUnnamed dfm = .ok out) :
    "Unnamed: 0" ∈ dfm.cols ∧ out = dropColumn "Unnamed: 0" dfm := by
  unfold dropUnnamed at h
  by_cases hm : "Unnamed: 0" ∈ dfm.cols
  · rw [if_pos hm] at h
    exact ⟨hm, (Except.ok.injEq _ _).mp h |>.symm⟩
  · rw [if_neg hm] at h
    cases h

theorem process_eq (c1 c2 : String) (m : List (String × String))
    (sqlRaw : Except PipeError DataFrame) (csvParsed : Option DataFrame)
    (df0 df2 wdf merged : DataFrame)
    (h0 : ingest_sql_data sqlRaw = .ok df0)
    (h1 : apply_corrections m "Crop_type" "Elevation" (rename_columns c1 c2 df0)
      = .ok df2)
    (h2 : read_from_web_CSV csvParsed = .ok wdf)
    (h3 : pdMergeLeft "Field_ID" df2 wdf = .ok merged) :
    process c1 c2 m sqlRaw csvParsed = dropUnnamed merged := by
  simp only [process, h0, h1, weather_station_mapping, h2, h3]

/-- Elevation invariant bundle: after apply_corrections the Elevation column
equals the cell-wise magnitude of its input, hence every corrected Elevation
value is a non-negative number, already-non-negative values are unchanged by
the magnitude map, and the invariant carries to the finalized output table. -/
def elevationOK (df1 df2 out : DataFrame) : Prop :=
  df2.col "Elevation" = (df1.col "Elevation").map absV ∧
  (∀ v ∈ df2.col "Elevation", ∃ q : ℚ, v = .num q ∧ 0 ≤ q) ∧
  (∀ v ∈ df1.col "Elevation", (∃ q : ℚ, v = .num q ∧ 0 ≤ q) → absV v = v) ∧
  (∀ v ∈ out.col "Elevation", ∃ q : ℚ, v = .num q ∧ 0 ≤ q)

/-- C1: with numeric Elevation data, apply_corrections replaces every
Elevation value by its absolute value (leaving non-negative values
unchanged), so Elevation is non-negative in the corrected table and in the
finalized output of process. -/
theorem elevation_abs_invariant (c1 c2 : String) (m : List (String × String))
    (sqlRaw : Except PipeError DataFrame) (csvParsed : Option DataFrame)
    (df0 df2 wdf merged out : DataFrame)
    (h0 : ingest_sql_data sqlRaw = .ok df0)
    (h1 : apply_corrections m "Crop_type" "Elevation" (rename_columns c1 c2 df0)
      = .ok df2)
    (h2 : read_from_web_CSV csvParsed = .ok wdf)
    (h3 : pdMergeLeft "Field_ID" df2 wdf = .ok merged)
    (h4 : process c1 c2 m sqlRaw csvParsed = .ok out)
    (hel : "Elevation" ∈ (rename_columns c1 c2 df0).cols)
    (hcr : "Crop_type" ∈ (rename_columns c1 c2 df0).cols)
    (hnum : ∀ v ∈ (rename_columns c1 c2 df0).col "Elevation", v.isNum = true)
    (hwf : (rename_columns c1 c2 df0).WF)
    (hun : "Unnamed: 0" ∉ (rename_columns c1 c2 df0).cols) :
    elevationOK (rename_columns c1 c2 df0) df2 out := by
  set df1 := rename_columns c1 c2 df0 with hdf1
  have hstr : ∀ v ∈ df1.col "Elevation", v.isStr = false := by
    intro v hv
    have := hnum v hv
    cases v <;> simp_all [Value.isNum, Value.isStr]
  have habs := apply_corrections_ok m "Crop_type" "Elevation" df1 hel hcr hstr
  rw [h1] at habs
  have hdf2 : df2 = canonicalizeColumn m "Crop_type"
      ⟨df1.cols, df1.rows.map (modifyAt absV (colIdx "Elevation" df1.cols))⟩ :=
    (Except.ok.injEq _ _).mp habs
  set dfAbs : DataFrame :=
    ⟨df1.cols, df1.rows.map (modifyAt absV (colIdx "Elevation" df1.cols))⟩
    with hdfAbs
  have hcolsAbs : dfAbs.cols = df1.cols := rfl
  have hcols2 : df2.cols = df1.cols := by rw [hdf2]; rfl
  -- the Elevation column of df2
  have hcolE : df2.col "Elevation" = (df1.col "Elevation").map absV := by
    rw [hdf2]
    by_cases hcc : ("Elevation" : String) = "Crop_type"
    · -- same designated column: canonicalization preserves numbers,
      -- but this case cannot occur for distinct literals; handle generally
      exact absurd hcc (by decide)
    · have h1' := canonicalizeColumn_col_other m "Crop_type" dfAbs
        (hcolsAbs ▸ hcr) "Elevation" (hcolsAbs ▸ hel) hcc
      rw [h1']
      exact col_mk_modifyAt_self absV absV_null df1 "Elevation"
  have hnn : ∀ v ∈ df2.col "Elevation", ∃ q : ℚ, v = .num q ∧ 0 ≤ q := by
    intro v hv
    rw [hcolE] at hv
    rcases List.mem_map.mp hv with ⟨u, hu, rfl⟩
    have := hnum u hu
    cases u with
    | num q => exact ⟨|q|, rfl, abs_nonneg q⟩
    | str s => simp [Value.isNum] at this
    | null => simp [Value.isNum] at this
  refine ⟨hcolE, hnn, ?_, ?_⟩
  · intro v _ hq
    rcases hq with ⟨q, rfl, hq0⟩
    simp [absV, abs_of_nonneg hq0]
  · -- propagate through the join and the final drop
    have hproc := process_eq c1 c2 m sqlRaw csvParsed df0 df2 wdf merged
      h0 h1 h2 h3
    rw [hproc] at h4
    obtain ⟨hunm, rfl⟩ := dropUnnamed_ok_inv merged out h4
    obtain ⟨hkl, hkr, hmerged⟩ := pdMergeLeft_ok_inv "Field_ID" df2 wdf merged h3
    have hel2 : "Elevation" ∈ df2.cols := hcols2 ▸ hel
    have hun2 : "Unnamed: 0" ∉ df2.cols := fun hh => hun (hcols2 ▸ hh)
    have hwf2 : df2.WF := by
      rw [hdf2]
      exact WF_canonicalizeColumn m "Crop_type" dfAbs
        (WF_mk_modifyAt absV _ df1 hwf)
    have hltE : colIdx "Elevation" merged.cols < colIdx "Unnamed: 0" merged.cols := by
      have hcm : merged.cols =
          df2.cols ++ wdf.cols.eraseIdx (colIdx "Field_ID" wdf.cols) := by
        rw [hmerged]
      rw [hcm, colIdx_append_left "Elevation" df2.cols _ hel2,
        colIdx_append_right "Unnamed: 0" df2.cols _ hun2]
      have := colIdx_lt_length "Elevation" df2.cols hel2
      omega
    intro v hv
    rw [dropColumn_col_of_lt "Unnamed: 0" "Elevation" merged hltE] at hv
    exact hnn v (mem_col_pdMergeLeft "Field_ID" "Elevation" df2 wdf merged
      h3 hwf2 hel2 v hv)

/-- Concrete field table used by witnesses: Field_ID 1 has a negative
Elevation and a canonicalizable crop value, Field_ID 2 a non-canonical one. -/
def sampleField : DataFrame :=
  ⟨["Field_ID", "Elevation", "Crop_type", "A", "B"],
    [[.num 1, .num (-3), .str "wheat", .num 10, .num 20],
     [.num 2, .num 5, .str "tea ", .num 30, .num 40]]⟩

/-- Concrete weather-mapping table with one station row for Field_ID 1. -/
def sampleMap : DataFrame :=
  ⟨["Unnamed: 0", "Field_ID", "Weather_station_ID"],
    [[.num 0, .num 1, .num 7]]⟩

/-- Corrected table obtained from sampleField after the column swap of A and
B and both value corrections. -/
def sampleCorrected : DataFrame :=
  ⟨["Field_ID", "Elevation", "Crop_type", "B", "A"],
    [[.num 1, .num 3, .str "Wheat", .num 10, .num 20],
     [.num 2, .num 5, .str "tea ", .num 30, .num 40]]⟩

/-- Left join of sampleCorrected with sampleMap on Field_ID. -/
def sampleMerged : DataFrame :=
  ⟨["Field_ID", "Elevation", "Crop_type", "B", "A", "Unnamed: 0",
      "Weather_station_ID"],
    [[.num 1, .num 3, .str "Wheat", .num 10, .num 20, .num 0, .num 7],
     [.num 2, .num 5, .str "tea ", .num 30, .num 40, .null, .null]]⟩

/-- Final output of process on the sample inputs. -/
def sampleOut : DataFrame :=
  ⟨["Field_ID", "Elevation", "Crop_type", "B", "A", "Weather_station_ID"],
    [[.num 1, .num 3, .str "Wheat", .num 10, .num 20, .num 7],
     [.num 2, .num 5, .str "tea ", .num 30, .num 40, .null]]⟩

/-- Witness for C1 on the concrete sample pipeline run. -/
theorem elevation_abs_invariant_witness :
    (ingest_sql_data (.ok sampleField) = .ok sampleField ∧
      apply_corrections [("wheat", "Wheat")] "Crop_type" "Elevation"
        (rename_columns "A" "B" sampleField) = .ok sampleCorrected ∧
      read_from_web_CSV (some sampleMap) = .ok sampleMap ∧
      pdMergeLeft "Field_ID" sampleCorrected sampleMap = .ok sampleMerged ∧
      process "A" "B" [("wheat", "Wheat")] (.ok sampleField) (some sampleMap) =
        .ok sampleOut) ∧
    elevationOK (rename_columns "A" "B" sampleField) sampleCorrected sampleOut :=
  ⟨by decide,
    elevation_abs_invariant "A" "B" [("wheat", "Wheat")] (.ok sampleField)
      (some sampleMap) sampleField sampleCorrected sampleMap sampleMerged
      sampleOut (by decide) (by decide) (by decide) (by decide) (by decide)
      (by decide) (by decide) (by decide) (by decide) (by decide)⟩

/- ---------------------------------------------------------------------
Claim C4 / C10: the Station Joiner.
--------------------------------------------------------------------- -/

theorem mergeRow_length (right : DataFrame) (key : String) (jl : Nat)
    (lr : List Value) :
    (mergeRow right key jl lr).length =
      max 1 (matchesOf right key (cellAt lr jl)).length := by
  unfold mergeRow
  by_cases he : (matchesOf right key (cellAt lr jl)).isEmpty
  · rw [if_pos he]
    have : matchesOf right key (cellAt lr jl) = [] := by
      simpa [List.isEmpty_iff] using he
    simp [this]
  · rw [if_neg he]
    have : matchesOf right key (cellAt lr jl) ≠ [] := by
      simpa [List.isEmpty_iff] using he
    have hpos : 1 ≤ (matchesOf right key (cellAt lr jl)).length :=
      Nat.one_le_iff_ne_zero.mpr (by simpa [List.length_eq_zero] using this)
    simp [Nat.max_eq_right hpos]

theorem length_le_sum_of_one_le :
    ∀ l : List Nat, (∀ x ∈ l, 1 ≤ x) → l.length ≤ l.sum := by
  intro l
  induction l with
  | nil => intro _; simp
  | cons x xs ih =>
    intro h
    have hx := h x (List.mem_cons_self x xs)
    have := ih (fun y hy => h y (List.mem_cons_of_mem x hy))
    simp only [List.length_cons, List.sum_cons]
    omega

theorem sum_map_eq_length {α : Type} (g : α → Nat) :
    ∀ l : List α, (∀ x ∈ l, g x = 1) → (l.map g).sum = l.length := by
  intro l
  induction l with
  | nil => intro _; simp
  | cons x xs ih =>
    intro h
    have hx := h x (List.mem_cons_self x xs)
    have := ih (fun y hy => h y (List.mem_cons_of_mem x hy))
    simp only [List.map_cons, List.sum_cons, hx, this, List.length_cons]
    omega

theorem filter_length_le_one_of_nodup_map {α β : Type} [DecidableEq β]
    (f : α → β) (v : β) :
    ∀ l : List α, (l.map f).Nodup →
      (l.filter (fun x => decide (f x = v))).length ≤ 1 := by
  intro l
  induction l with
  | nil => intro _; simp
  | cons x xs ih =>
    intro h
    rw [List.map_cons, List.nodup_cons] at h
    by_cases hx : f x = v
    · have hnil : xs.filter (fun y => decide (f y = v)) = [] := by
        rw [List.filter_eq_nil_iff]
        intro y hy
        simp only [decide_eq_true_eq]
        intro hyv
        apply h.1
        have hxy : f x = f y := by rw [hx, hyv]
        rw [hxy]
        exact List.mem_map_of_mem f hy
      simp [List.filter_cons, hx, hnil]
    · have := ih h.2
      simp only [List.filter_cons, decide_eq_true_eq]
      rw [if_neg hx]
      exact this

/-- Key cells of the mapping table, in row order. -/
def keyVals (key : String) (df : DataFrame) : List Value :=
  df.rows.map (fun rr => cellAt rr (colIdx key df.cols))

/-- Left-outer-join behaviour of the Station Joiner: exact fan-out
cardinality (one output row per matching right row, one padded row when there
is no match), hence at least one output row per left row, with equality
exactly guaranteed by a unique right key; every left row is a prefix of some
output row, unmatched left rows are padded with nulls, matched left rows are
extended with the matching right row minus its key cell, and the output
columns are the left columns followed by the right columns minus the key. -/
def joinSpec (fdf wdf merged : DataFrame) : Prop :=
  merged.rows.length =
    (fdf.rows.map (fun lr =>
      max 1 (matchesOf wdf "Field_ID"
        (cellAt lr (colIdx "Field_ID" fdf.cols))).length)).sum ∧
  fdf.rows.length ≤ merged.rows.length ∧
  ((keyVals "Field_ID" wdf).Nodup → merged.rows.length = fdf.rows.length) ∧
  (fdf.rows.length < merged.rows.length → ¬ (keyVals "Field_ID" wdf).Nodup) ∧
  (∀ lr ∈ fdf.rows, ∃ ext, lr ++ ext ∈ merged.rows) ∧
  (∀ lr ∈ fdf.rows,
    matchesOf wdf "Field_ID" (cellAt lr (colIdx "Field_ID" fdf.cols)) = [] →
    lr ++ List.replicate
        ((wdf.cols.eraseIdx (colIdx "Field_ID" wdf.cols)).length) Value.null ∈
      merged.rows) ∧
  (∀ lr ∈ fdf.rows,
    ∀ rr ∈ matchesOf wdf "Field_ID" (cellAt lr (colIdx "Field_ID" fdf.cols)),
      lr ++ rr.eraseIdx (colIdx "Field_ID" wdf.cols) ∈ merged.rows) ∧
  merged.cols = fdf.cols ++ wdf.cols.eraseIdx (colIdx "Field_ID" wdf.cols)

/-- C4: with Field_ID in both tables, the Station Joiner performs a left
outer join on Field_ID with fan-out semantics and returns the fetched
mapping table unmodified as the secondary result. -/
theorem weather_station_mapping_left_join (fdf wdf : DataFrame)
    (hkl : "Field_ID" ∈ fdf.cols) (hkr : "Field_ID" ∈ wdf.cols) :
    ∃ merged,
      weather_station_mapping (.ok wdf) (some fdf) =
        .ok (some merged, some wdf) ∧
      joinSpec fdf wdf merged := by
  set jl := colIdx "Field_ID" fdf.cols with hjl
  set kr := colIdx "Field_ID" wdf.cols with hkr'
  set merged : DataFrame :=
    ⟨fdf.cols ++ wdf.cols.eraseIdx kr,
      fdf.rows.flatMap (mergeRow wdf "Field_ID" jl)⟩ with hmerged
  have hpm : pdMergeLeft "Field_ID" fdf wdf = .ok merged := by
    unfold pdMergeLeft
    rw [if_pos ⟨hkl, hkr⟩]
  refine ⟨merged, ?_, ?_, ?_, ?_, ?_, ?_, ?_, ?_, rfl⟩
  · simp only [weather_station_mapping, hpm]
  · show (fdf.rows.flatMap (mergeRow wdf "Field_ID" jl)).length = _
    rw [List.length_flatMap]
    congr 1
    rw [List.map_eq_map_iff]
    intro lr _
    exact mergeRow_length wdf "Field_ID" jl lr
  · show fdf.rows.length ≤ (fdf.rows.flatMap (mergeRow wdf "Field_ID" jl)).length
    rw [List.length_flatMap]
    have hlen : (fdf.rows.map fun lr => (mergeRow wdf "Field_ID" jl lr).length).length
        = fdf.rows.length := List.length_map _ _
    rw [← hlen]
    apply length_le_sum_of_one_le
    intro x hx
    rcases List.mem_map.mp hx with ⟨lr, _, rfl⟩
    rw [mergeRow_length]
    omega
  · intro hnd
    show (fdf.rows.flatMap (mergeRow wdf "Field_ID" jl)).length = fdf.rows.length
    rw [List.length_flatMap]
    apply sum_map_eq_length
    intro lr _
    simp only [Function.comp_apply]
    rw [mergeRow_length]
    have := filter_length_le_one_of_nodup_map
      (fun rr => cellAt rr (colIdx "Field_ID" wdf.cols)) (cellAt lr jl)
      wdf.rows hnd
    have hle : (matchesOf wdf "Field_ID" (cellAt lr jl)).length ≤ 1 := this
    omega
  · intro hlt hnd
    have h3 : (fdf.rows.flatMap (mergeRow wdf "Field_ID" jl)).length =
        fdf.rows.length := by
      rw [List.length_flatMap]
      apply sum_map_eq_length
      intro lr _
      simp only [Function.comp_apply]
      rw [mergeRow_length]
      have hle : (matchesOf wdf "Field_ID" (cellAt lr jl)).length ≤ 1 :=
        filter_length_le_one_of_nodup_map
          (fun rr => cellAt rr (colIdx "Field_ID" wdf.cols)) (cellAt lr jl)
          wdf.rows hnd
      omega
    have : merged.rows.length = fdf.rows.length := h3
    omega
  · intro lr hlr
    by_cases hms : matchesOf wdf "Field_ID" (cellAt lr jl) = []
    · refine ⟨List.replicate ((wdf.cols.eraseIdx kr).length) Value.null,
        List.mem_flatMap.mpr ⟨lr, hlr, ?_⟩⟩
      unfold mergeRow
      rw [if_pos (by simp [hms])]
      exact List.mem_singleton.mpr rfl
    · rcases List.exists_mem_of_ne_nil _ hms with ⟨rr, hrr⟩
      refine ⟨rr.eraseIdx kr, List.mem_flatMap.mpr ⟨lr, hlr, ?_⟩⟩
      unfold mergeRow
      rw [if_neg (by simpa [List.isEmpty_iff] using hms)]
      exact List.mem_map_of_mem _ hrr
  · intro lr hlr hms
    apply List.mem_flatMap.mpr
    refine ⟨lr, hlr, ?_⟩
    unfold mergeRow
    rw [if_pos (by simp [hms])]
    exact List.mem_singleton.mpr rfl
  · intro lr hlr rr hrr
    apply List.mem_flatMap.mpr
    refine ⟨lr, hlr, ?_⟩
    unfold mergeRow
    rw [if_neg (by simp [List.isEmpty_iff]; exact List.ne_nil_of_mem hrr)]
    exact List.mem_map_of_mem _ hrr

/-- Concrete weather-mapping table with a duplicated Field_ID key. -/
def sampleMapDup : DataFrame :=
  ⟨["Unnamed: 0", "Field_ID", "Weather_station_ID"],
    [[.num 0, .num 1, .num 7], [.num 1, .num 1, .num 8]]⟩

/-- Witness for C4 on the concrete sample tables with a non-unique right
key. -/
theorem weather_station_mapping_left_join_witness :
    ("Field_ID" ∈ sampleCorrected.cols ∧ "Field_ID" ∈ sampleMapDup.cols) ∧
    (∃ merged,
      weather_station_mapping (.ok sampleMapDup) (some sampleCorrected) =
        .ok (some merged, some sampleMapDup) ∧
      joinSpec sampleCorrected sampleMapDup merged) :=
  ⟨by decide,
    weather_station_mapping_left_join sampleCorrected sampleMapDup
      (by decide) (by decide)⟩

/-- C10: invoked with the working table still None (nothing ingested), the
Station Joiner skips its body entirely: the outcome is independent of the
remote fetch (so the fetch result is never consulted, even an erroring one),
the working table stays None, no mapping table is returned, and no error is
raised. -/
theorem weather_station_mapping_none (fetch : Except PipeError DataFrame) :
    weather_station_mapping fetch none = .ok (none, none) := rfl

/- ---------------------------------------------------------------------
Claim C5 / C6: zero-row weather fetch and the final drop.
--------------------------------------------------------------------- -/

/-- Concrete weather-mapping table that parses to zero rows. -/
def sampleMapEmpty : DataFrame :=
  ⟨["Unnamed: 0", "Field_ID", "Weather_station_ID"], []⟩

/-- Output of process on the sample field table with the zero-row mapping. -/
def sampleOutEmptyMap : DataFrame :=
  ⟨["Field_ID", "Elevation", "Crop_type", "B", "A", "Weather_station_ID"],
    [[.num 1, .num 3, .str "Wheat", .num 10, .num 20, .null],
     [.num 2, .num 5, .str "tea ", .num 30, .num 40, .null]]⟩

/-- C5 counterexample: a weather-mapping fetch that parses to a table with
zero rows raises no error at all: read_from_web_CSV returns the empty table
as is and process completes, returning a finalized table - no
EmptyResultError (ValueError) is raised before producing output. -/
theorem process_accepts_empty_weather_map :
    sampleMapEmpty.rows = [] ∧
    read_from_web_CSV (some sampleMapEmpty) = .ok sampleMapEmpty ∧
    process "A" "B" [("wheat", "Wheat")] (.ok sampleField)
        (some sampleMapEmpty) = .ok sampleOutEmptyMap := by
  refine ⟨rfl, rfl, by decide⟩

/-- C5 amended: a zero-row weather-mapping table passes the fetch unchecked
(the empty-result check exists only in query_data, the SQL side), and the
join then keeps every field row, padded with nulls in the station columns. -/
theorem weather_map_zero_rows_no_error (fdf wdf : DataFrame)
    (hrows : wdf.rows = []) (hkl : "Field_ID" ∈ fdf.cols)
    (hkr : "Field_ID" ∈ wdf.cols) :
    read_from_web_CSV (some wdf) = .ok wdf ∧
    ∃ merged,
      weather_station_mapping (read_from_web_CSV (some wdf)) (some fdf) =
        .ok (some merged, some wdf) ∧
      merged.rows = fdf.rows.map (fun lr =>
        lr ++ List.replicate
          ((wdf.cols.eraseIdx (colIdx "Field_ID" wdf.cols)).length)
          Value.null) ∧
      merged.rows.length = fdf.rows.length := by
  refine ⟨rfl, ?_⟩
  set jl := colIdx "Field_ID" fdf.cols with hjl
  set kr := colIdx "Field_ID" wdf.cols with hkr2
  set pad : List Value :=
    List.replicate ((wdf.cols.eraseIdx kr).length) Value.null with hpad
  have hMR : ∀ lr : List Value, mergeRow wdf "Field_ID" jl lr = [lr ++ pad] := by
    intro lr
    unfold mergeRow matchesOf
    rw [hrows]
    simp
  have hflat : ∀ l : List (List Value),
      l.flatMap (mergeRow wdf "Field_ID" jl) = l.map (fun lr => lr ++ pad) := by
    intro l
    induction l with
    | nil => rfl
    | cons x xs ih => simp [List.flatMap_cons, hMR, ih]
  set merged : DataFrame :=
    ⟨fdf.cols ++ wdf.cols.eraseIdx kr,
      fdf.rows.flatMap (mergeRow wdf "Field_ID" jl)⟩ with hmerged
  have hpm : pdMergeLeft "Field_ID" fdf wdf = .ok merged := by
    unfold pdMergeLeft
    rw [if_pos ⟨hkl, hkr⟩]
  refine ⟨merged, ?_, ?_, ?_⟩
  · simp only [read_from_web_CSV, weather_station_mapping, hpm]
  · show fdf.rows.flatMap (mergeRow wdf "Field_ID" jl) = _
    rw [hflat]
  · show (fdf.rows.flatMap (mergeRow wdf "Field_ID" jl)).length = _
    rw [hflat, List.length_map]

/-- Witness for the amended C5 on concrete tables. -/
theorem weather_map_zero_rows_no_error_witness :
    (sampleMapEmpty.rows = [] ∧ "Field_ID" ∈ sampleCorrected.cols ∧
      "Field_ID" ∈ sampleMapEmpty.cols) ∧
    (read_from_web_CSV (some sampleMapEmpty) = .ok sampleMapEmpty ∧
      ∃ merged,
        weather_station_mapping (read_from_web_CSV (some sampleMapEmpty))
            (some sampleCorrected) = .ok (some merged, some sampleMapEmpty) ∧
        merged.rows = sampleCorrected.rows.map (fun lr =>
          lr ++ List.replicate
            ((sampleMapEmpty.cols.eraseIdx
              (colIdx "Field_ID" sampleMapEmpty.cols)).length) Value.null) ∧
        merged.rows.length = sampleCorrected.rows.length) :=
  ⟨by decide,
    weather_map_zero_rows_no_error sampleCorrected sampleMapEmpty
      (by decide) (by decide) (by decide)⟩

/-- Concrete weather-mapping table without the "Unnamed: 0" index artifact. -/
def sampleMapNoIdx : DataFrame :=
  ⟨["Field_ID", "Weather_station_ID"], [[.num 1, .num 7]]⟩

/-- Join of sampleCorrected with sampleMapNoIdx. -/
def sampleMergedNoIdx : DataFrame :=
  ⟨["Field_ID", "Elevation", "Crop_type", "B", "A", "Weather_station_ID"],
    [[.num 1, .num 3, .str "Wheat", .num 10, .num 20, .num 7],
     [.num 2, .num 5, .str "tea ", .num 30, .num 40, .null]]⟩

/-- C6 counterexample: on a run whose merged table lacks the "Unnamed: 0"
column (all four stages succeed, as the explicit join result shows), process
does not complete: the unconditional drop raises KeyError. -/
theorem process_fails_without_index_artifact :
    ("Unnamed: 0" ∉ sampleMapNoIdx.cols) ∧
    pdMergeLeft "Field_ID" sampleCorrected sampleMapNoIdx =
      .ok sampleMergedNoIdx ∧
    process "A" "B" [("wheat", "Wheat")] (.ok sampleField)
        (some sampleMapNoIdx) = .error .keyError := by
  refine ⟨by decide, by decide, by decide⟩

/-- C6 amended: process runs ingest, column reconciliation, value correction
and the join in that fixed order, then drops "Unnamed: 0" unconditionally:
when the merged table has that column process returns the merged table with
it dropped, but when the column is absent the drop raises KeyError and
process fails instead of completing. -/
theorem process_drop_unconditional (c1 c2 : String)
    (m : List (String × String)) (sqlRaw : Except PipeError DataFrame)
    (csvParsed : Option DataFrame) (df0 df2 wdf merged : DataFrame)
    (h0 : ingest_sql_data sqlRaw = .ok df0)
    (h1 : apply_corrections m "Crop_type" "Elevation" (rename_columns c1 c2 df0)
      = .ok df2)
    (h2 : read_from_web_CSV csvParsed = .ok wdf)
    (h3 : pdMergeLeft "Field_ID" df2 wdf = .ok merged) :
    ("Unnamed: 0" ∈ merged.cols →
      process c1 c2 m sqlRaw csvParsed =
        .ok (dropColumn "Unnamed: 0" merged)) ∧
    ("Unnamed: 0" ∉ merged.cols →
      process c1 c2 m sqlRaw csvParsed = .error .keyError) := by
  have hp := process_eq c1 c2 m sqlRaw csvParsed df0 df2 wdf merged h0 h1 h2 h3
  constructor
  · intro hm
    rw [hp]
    unfold dropUnnamed
    rw [if_pos hm]
  · intro hm
    rw [hp]
    unfold dropUnnamed
    rw [if_neg hm]

/-- Witness for the amended C6 on the concrete sample run whose merged table
carries the index artifact. -/
theorem process_drop_unconditional_witness :
    (ingest_sql_data (.ok sampleField) = .ok sampleField ∧
      apply_corrections [("wheat", "Wheat")] "Crop_type" "Elevation"
        (rename_columns "A" "B" sampleField) = .ok sampleCorrected ∧
      read_from_web_CSV (some sampleMap) = .ok sampleMap ∧
      pdMergeLeft "Field_ID" sampleCorrected sampleMap = .ok sampleMerged) ∧
    (("Unnamed: 0" ∈ sampleMerged.cols →
      process "A" "B" [("wheat", "Wheat")] (.ok sampleField) (some sampleMap) =
        .ok (dropColumn "Unnamed: 0" sampleMerged)) ∧
    ("Unnamed: 0" ∉ sampleMerged.cols →
      process "A" "B" [("wheat", "Wheat")] (.ok sampleField) (some sampleMap) =
        .error .keyError)) :=
  ⟨by decide,
    process_drop_unconditional "A" "B" [("wheat", "Wheat")] (.ok sampleField)
      (some sampleMap) sampleField sampleCorrected sampleMap sampleMerged
      (by decide) (by decide) (by decide) (by decide)⟩
